import Mathlib

/-!
Verification of the goseek `slsk` wire-protocol codec.

Shallow embedding of `pkg/slsk/protocol.go`.

Modelling choices:
* A byte stream / byte buffer is a `List Nat`; a genuine byte satisfies `b < 256`.
  Bytes produced by the encoders are < 256 by construction; theorems about
  decoding arbitrary input carry a validity hypothesis where bytes are
  interpreted numerically.
* Go `int32` / `int64` values are modelled as `Int` together with the explicit
  two's-complement conversions `toSigned32` / `toSigned64`; Go's truncating
  conversions (`int32(n)` on a larger value) appear as `% 2^32` / `% 2^64`.
* Fallible operations return `Except ProtoError _`; `ProtoError` mirrors the
  spec's error taxonomy (TruncatedRead, InvalidLength, StringTooLarge).
* Reading from an `io.Reader` is state passing: a reader function consumes a
  prefix of the list and returns the value together with the remaining list.
-/

/-- Error taxonomy of the codec: `binary.Read`/`io.ReadFull` stream exhaustion
is `truncatedRead`; the `invalid message length` / `invalid string length` /
`invalid chunk length` checks are `invalidLength` carrying the offending
declared length; the `String too large` encode-time check is
`stringTooLarge` carrying the string's byte length. -/
inductive ProtoError where
  | truncatedRead : ProtoError
  | invalidLength : Int → ProtoError
  | stringTooLarge : Nat → ProtoError
deriving Repr, DecidableEq

/-- All elements of the list are genuine byte values. -/
def ValidBytes (l : List Nat) : Prop := ∀ b ∈ l, b < 256

instance : DecidablePred ValidBytes := fun l =>
  inferInstanceAs (Decidable (∀ b ∈ l, b < 256))

/-- Two's-complement reinterpretation of a 32-bit unsigned value, as done by
Go when 4 little-endian bytes are read back into an `int32`. -/
def toSigned32 (n : Nat) : Int :=
  if n < 2147483648 then (n : Int) else (n : Int) - 4294967296

/-- Two's-complement reinterpretation of a 64-bit unsigned value. -/
def toSigned64 (n : Nat) : Int :=
  if n < 9223372036854775808 then (n : Int) else (n : Int) - 18446744073709551616

/-- The 4 little-endian bytes of `n % 2^32`: what `binary.Write(buf,
LittleEndian, int32(n))` emits for a nonnegative quantity `n`. -/
def natLE4 (n : Nat) : List Nat :=
  [n % 256, n / 256 % 256, n / 65536 % 256, n / 16777216 % 256]

/-- The 8 little-endian bytes of `n % 2^64`. -/
def natLE8 (n : Nat) : List Nat :=
  [n % 256, n / 256 % 256, n / 65536 % 256, n / 16777216 % 256,
   n / 4294967296 % 256, n / 1099511627776 % 256,
   n / 281474976710656 % 256, n / 72057594037927936 % 256]

/-- Little-endian bytes of an `int32` value (two's complement bit pattern). -/
def encInt32 (v : Int) : List Nat := natLE4 (v % 4294967296).toNat

/-- Little-endian bytes of an `int64` value (two's complement bit pattern). -/
def encInt64 (v : Int) : List Nat := natLE8 (v % 18446744073709551616).toNat

/-- Model of `readInt32(r)`: `binary.Read(r, LittleEndian, &n)` for an `int32` —
consumes exactly 4 bytes or fails when the stream ends early. -/
def readInt32 : List Nat → Except ProtoError (Int × List Nat)
  | b0 :: b1 :: b2 :: b3 :: r =>
      .ok (toSigned32 (b0 + 256 * b1 + 65536 * b2 + 16777216 * b3), r)
  | _ => .error .truncatedRead

/-- Model of `readInt64(r)`: consumes exactly 8 bytes or fails. -/
def readInt64 : List Nat → Except ProtoError (Int × List Nat)
  | b0 :: b1 :: b2 :: b3 :: b4 :: b5 :: b6 :: b7 :: r =>
      .ok (toSigned64 (b0 + 256 * b1 + 65536 * b2 + 16777216 * b3 +
        4294967296 * b4 + 1099511627776 * b5 + 281474976710656 * b6 +
        72057594037927936 * b7), r)
  | _ => .error .truncatedRead

/-- Model of `io.ReadFull(r, buf)` for a buffer of `n` bytes: all `n` bytes or failure. -/
def readBytes (n : Nat) (l : List Nat) : Option (List Nat × List Nat) :=
  if n ≤ l.length then some (l.take n, l.drop n) else none
/-! ## Framing layer (`PackMessage`, `ReadMessage`, `prefixLength`) -/

/-- Message-type constants from the `MsgType` enumeration. -/
def MsgHello : Int := 1
def MsgRoomsList : Int := 10
def MsgJoinRoom : Int := 11
def MsgRoomMembers : Int := 12
def MsgFileList : Int := 20
def MsgFileAdvert : Int := 21
def MsgGetFile : Int := 30
def MsgFileChunk : Int := 31
def MsgTransferInit : Int := 50
def MsgChat : Int := 40
def MsgPing : Int := 99

/-- Model of `prefixLength(data)`: prepends `int32(len(data))` little-endian — Go's
truncating `int32` conversion of the (64-bit) length is `% 2^32`. -/
def prefixLength (data : List Nat) : List Nat :=
  natLE4 (data.length % 4294967296) ++ data

/-- Model of `PackMessage(msg, payload)`: writes `int32(msg)` little-endian, appends
the payload (the `len(payload) > 0` guard is the same as an unconditional
append), then prefixes the length. -/
def PackMessage (msg : Int) (payload : List Nat) : List Nat :=
  prefixLength (encInt32 msg ++ payload)

/-- Model of `ReadMessage(r)`: reads `int32 length`, `int32 msgID`, checks
`remaining = length - 4 ≥ 0` (else `invalid message length`), then reads
`remaining` payload bytes with `io.ReadFull`. -/
def ReadMessage (r : List Nat) : Except ProtoError (Int × List Nat) :=
  match readInt32 r with
  | .error e => .error e
  | .ok (length, r1) =>
    match readInt32 r1 with
    | .error e => .error e
    | .ok (msgID, r2) =>
      if length - 4 < 0 then .error (.invalidLength length)
      else if length - 4 > 0 then
        match readBytes (length - 4).toNat r2 with
        | none => .error .truncatedRead
        | some (payload, _) => .ok (msgID, payload)
      else .ok (msgID, [])

/-! ## Primitive string codec (`WriteString`, `ReadString`) -/

/-- The constant `maxStringLen = 50_000_000`. -/
def maxStringLen : Nat := 50000000

/-- Model of `WriteString(buf, s)`: rejects `len(s) > maxStringLen` before writing
anything; otherwise writes `int32(len(s))` little-endian then the raw bytes.
Modelled as returning the bytes appended to the buffer. -/
def WriteString (s : List Nat) : Except ProtoError (List Nat) :=
  if s.length > maxStringLen then .error (.stringTooLarge s.length)
  else .ok (natLE4 (s.length % 4294967296) ++ s)

/-- Model of `ReadString(r)`: reads `int32 length`; `invalid string length` when
negative or above `maxStringLen`; empty string with no further read when 0;
otherwise exactly `length` bytes via `io.ReadFull`. Returns the string and
the remaining stream. -/
def ReadString (r : List Nat) : Except ProtoError (List Nat × List Nat) :=
  match readInt32 r with
  | .error e => .error e
  | .ok (l, r1) =>
    if l < 0 ∨ l > (maxStringLen : Int) then .error (.invalidLength l)
    else if l = 0 then .ok ([], r1)
    else
      match readBytes l.toNat r1 with
      | none => .error .truncatedRead
      | some (b, r2) => .ok (b, r2)

/-- The encoders call `WriteString` on a `bytes.Buffer` and discard its
error: on success the encoded bytes are appended, on failure the buffer is
left untouched. -/
def writeStrTo (buf s : List Nat) : List Nat :=
  match WriteString s with
  | .ok bs => buf ++ bs
  | .error _ => buf

/-! ## Message layer encoders/decoders -/

def EncodeHello (username : List Nat) : List Nat :=
  PackMessage MsgHello (writeStrTo [] username)

def DecodeHello (payload : List Nat) : Except ProtoError (List Nat) :=
  match ReadString payload with
  | .error e => .error e
  | .ok (s, _) => .ok s

def EncodePing : List Nat := PackMessage MsgPing []

def EncodeFileAdvert (fileID name : List Nat) (size : Int) : List Nat :=
  PackMessage MsgFileAdvert (writeStrTo (writeStrTo [] fileID) name ++ encInt64 size)

def DecodeFileAdvert (payload : List Nat) :
    Except ProtoError (List Nat × List Nat × Int) :=
  match ReadString payload with
  | .error e => .error e
  | .ok (fileID, r1) =>
    match ReadString r1 with
    | .error e => .error e
    | .ok (name, r2) =>
      match readInt64 r2 with
      | .error e => .error e
      | .ok (size, _) => .ok (fileID, name, size)

def EncodeGetFile (transferID fileID : List Nat) (offset : Int) : List Nat :=
  PackMessage MsgGetFile (writeStrTo (writeStrTo [] transferID) fileID ++ encInt64 offset)

def DecodeGetFile (payload : List Nat) :
    Except ProtoError (List Nat × List Nat × Int) :=
  match ReadString payload with
  | .error e => .error e
  | .ok (transferID, r1) =>
    match ReadString r1 with
    | .error e => .error e
    | .ok (fileID, r2) =>
      match readInt64 r2 with
      | .error e => .error e
      | .ok (offset, _) => .ok (transferID, fileID, offset)

def EncodeFileChunk (transferID : List Nat) (offset : Int) (chunk : List Nat) :
    List Nat :=
  PackMessage MsgFileChunk
    (writeStrTo [] transferID ++ encInt64 offset ++
      natLE4 (chunk.length % 4294967296) ++ chunk)

/-- Model of `DecodeFileChunk(payload)`: transferID string, int64 offset, int32 chunk
length checked against `100*1024*1024`, then the chunk bytes; a zero chunk
length returns immediately with a nil (empty) chunk. -/
def DecodeFileChunk (payload : List Nat) :
    Except ProtoError (List Nat × Int × List Nat) :=
  match ReadString payload with
  | .error e => .error e
  | .ok (transferID, r1) =>
    match readInt64 r1 with
    | .error e => .error e
    | .ok (offset, r2) =>
      match readInt32 r2 with
      | .error e => .error e
      | .ok (chLen, r3) =>
        if chLen < 0 ∨ chLen > 104857600 then .error (.invalidLength chLen)
        else if chLen = 0 then .ok (transferID, offset, [])
        else
          match readBytes chLen.toNat r3 with
          | none => .error .truncatedRead
          | some (chunk, _) => .ok (transferID, offset, chunk)


/-- The unsigned numeric value denoted by a 4-byte little-endian field; used
to state the spec's phrase "a 4-byte little-endian length equal to N" about
the frame header. -/
def leFieldValue : List Nat → Nat
  | [b0, b1, b2, b3] => b0 + 256 * b1 + 65536 * b2 + 16777216 * b3
  | _ => 0


-- Sanity checks on the primitive layer.
example : readInt32 [1, 0, 0, 0, 9] = .ok (1, [9]) := rfl
example : readInt32 [255, 255, 255, 255] = .ok (-1, []) := rfl
example : readInt32 [0, 0, 0, 128] = .ok (-2147483648, []) := rfl
example : readInt32 [1, 0, 0] = .error .truncatedRead := rfl
example : encInt32 (-1) = [255, 255, 255, 255] := rfl
example : readInt64 (encInt64 (-5)) = .ok (-5, []) := rfl
-- Sanity checks on the message layer, mirroring the repository's tests.
example : ReadMessage (PackMessage MsgHello [104, 105]) = .ok (MsgHello, [104, 105]) := rfl
example : DecodeHello ((EncodeHello [97, 98]).drop 8) = .ok [97, 98] := rfl
example : ReadMessage [1, 0, 0] = .error .truncatedRead := rfl
example : ReadMessage [3, 0, 0, 0, 7, 0, 0, 0] = .error (.invalidLength 3) := rfl
example : DecodeFileChunk ((EncodeFileChunk [116] 7 [1, 2, 3]).drop 8) =
    .ok ([116], 7, [1, 2, 3]) := rfl

/-- Reassembling the 4 little-endian bytes of `n` yields `n % 2^32`. -/
theorem natLE4_decode (n : Nat) :
    n % 256 + 256 * (n / 256 % 256) + 65536 * (n / 65536 % 256) +
      16777216 * (n / 16777216 % 256) = n % 4294967296 := by
  omega

/-- Reassembling the 8 little-endian bytes of `n` yields `n % 2^64`. -/
theorem natLE8_decode (n : Nat) :
    n % 256 + 256 * (n / 256 % 256) + 65536 * (n / 65536 % 256) +
      16777216 * (n / 16777216 % 256) + 4294967296 * (n / 4294967296 % 256) +
      1099511627776 * (n / 1099511627776 % 256) +
      281474976710656 * (n / 281474976710656 % 256) +
      72057594037927936 * (n / 72057594037927936 % 256) =
      n % 18446744073709551616 := by
  omega

theorem readInt32_natLE4 (n : Nat) (rest : List Nat) :
    readInt32 (natLE4 n ++ rest) = .ok (toSigned32 (n % 4294967296), rest) := by
  simp [natLE4, readInt32, natLE4_decode]

theorem readInt64_natLE8 (n : Nat) (rest : List Nat) :
    readInt64 (natLE8 n ++ rest) = .ok (toSigned64 (n % 18446744073709551616), rest) := by
  simp [natLE8, readInt64, natLE8_decode]

theorem toSigned32_small (n : Nat) (h : n < 2147483648) : toSigned32 n = n := by
  simp [toSigned32, h]

theorem toSigned64_small (n : Nat) (h : n < 9223372036854775808) :
    toSigned64 n = n := by
  simp [toSigned64, h]

/-- Encoding an in-range `int32` and reinterpreting its unsigned pattern
recovers the value. -/
theorem toSigned32_emod (v : Int) (h1 : -2147483648 ≤ v) (h2 : v < 2147483648) :
    toSigned32 ((v % 4294967296).toNat % 4294967296) = v := by
  unfold toSigned32
  split <;> omega

theorem toSigned64_emod (v : Int) (h1 : -9223372036854775808 ≤ v)
    (h2 : v < 9223372036854775808) :
    toSigned64 ((v % 18446744073709551616).toNat % 18446744073709551616) = v := by
  unfold toSigned64
  split <;> omega

theorem readInt32_encInt32 (v : Int) (h1 : -2147483648 ≤ v) (h2 : v < 2147483648)
    (rest : List Nat) : readInt32 (encInt32 v ++ rest) = .ok (v, rest) := by
  rw [encInt32, readInt32_natLE4, toSigned32_emod v h1 h2]

theorem readInt64_encInt64 (v : Int) (h1 : -9223372036854775808 ≤ v)
    (h2 : v < 9223372036854775808) (rest : List Nat) :
    readInt64 (encInt64 v ++ rest) = .ok (v, rest) := by
  rw [encInt64, readInt64_natLE8, toSigned64_emod v h1 h2]
/-! ## Helper lemmas -/

theorem readBytes_exact (p rest : List Nat) :
    readBytes p.length (p ++ rest) = some (p, rest) := by
  simp [readBytes, List.take_left, List.drop_left]

theorem readBytes_short (n : Nat) (l : List Nat) (h : l.length < n) :
    readBytes n l = none := by
  simp [readBytes]
  omega

theorem writeStrTo_ok (buf s : List Nat) (h : s.length ≤ maxStringLen) :
    writeStrTo buf s = buf ++ natLE4 (s.length % 4294967296) ++ s := by
  simp only [writeStrTo, WriteString, maxStringLen] at *
  rw [if_neg (by omega)]
  simp [List.append_assoc]

theorem ReadString_enc (s : List Nat) (h : s.length ≤ maxStringLen)
    (rest : List Nat) :
    ReadString (natLE4 (s.length % 4294967296) ++ (s ++ rest)) = .ok (s, rest) := by
  have hm : maxStringLen = 50000000 := rfl
  have hlen : s.length % 4294967296 = s.length := by omega
  have hs : s.length < 2147483648 := by omega
  simp only [ReadString, readInt32_natLE4, hlen, toSigned32_small _ hs]
  by_cases h0 : s.length = 0
  · have hnil : s = [] := List.eq_nil_of_length_eq_zero h0
    subst hnil
    simp
  · rw [if_neg (by omega), if_neg (by omega)]
    simp only [Int.toNat_natCast, readBytes_exact]

theorem pack_drop8 (m : Int) (p : List Nat) : (PackMessage m p).drop 8 = p := by
  simp [PackMessage, prefixLength, encInt32, natLE4]

theorem encInt32_length (m : Int) : (encInt32 m).length = 4 := by
  simp [encInt32, natLE4]

/-- Shared round-trip engine: decoding a packed frame recovers the message
type and payload whenever the `int32` length prefix does not overflow. -/
theorem readMessage_packMessage (m : Int) (h1 : -2147483648 ≤ m)
    (h2 : m < 2147483648) (p : List Nat) (hp : p.length ≤ 2147483643) :
    ReadMessage (PackMessage m p) = .ok (m, p) := by
  have hlen : (encInt32 m ++ p).length = 4 + p.length := by
    simp [encInt32_length]
  have hmod : (4 + p.length) % 4294967296 = 4 + p.length :=
    Nat.mod_eq_of_lt (by omega)
  have hsm : 4 + p.length < 2147483648 := by omega
  simp only [PackMessage, prefixLength, hlen, ReadMessage, readInt32_natLE4,
    hmod, toSigned32_small _ hsm, readInt32_encInt32 m h1 h2 p]
  have hrem : ((4 + p.length : Nat) : Int) - 4 = (p.length : Int) := by
    push_cast
    ring
  by_cases hp0 : p.length = 0
  · have hnil : p = [] := List.eq_nil_of_length_eq_zero hp0
    subst hnil
    norm_num
  · rw [hrem, if_neg (by omega), if_pos (by omega)]
    have : readBytes (p.length : Int).toNat p = some (p, []) := by
      rw [Int.toNat_natCast]
      have := readBytes_exact p []
      rwa [List.append_nil] at this
    rw [this]

/-! ## C1 — frame round-trip -/

/-- C1 (amended): for every `MsgType` value `m` (an `int32`, so
`-2^31 ≤ m < 2^31`) and every byte payload `p` with `len(p) ≤ 2^31 - 5`
(so that the `int32` length prefix `4 + len(p)` does not overflow),
`ReadMessage (PackMessage m p) = (m, p)` with no error. The original
universally-quantified claim fails at `len(p) = 2^31 - 4`, where Go's
`int32(len(data))` conversion wraps negative (see the counterexample). -/
theorem frame_roundtrip (m : Int) (h1 : -2147483648 ≤ m) (h2 : m < 2147483648)
    (p : List Nat) (hp : p.length ≤ 2147483643) :
    ReadMessage (PackMessage m p) = .ok (m, p) :=
  readMessage_packMessage m h1 h2 p hp

/-- C1 witness: the round-trip at the concrete frame `PackMessage 7 [10, 20]`,
with every hypothesis discharged. -/
theorem frame_roundtrip_witness :
    (-2147483648 ≤ (7 : Int) ∧ (7 : Int) < 2147483648 ∧
      ([10, 20] : List Nat).length ≤ 2147483643) ∧
    ReadMessage (PackMessage 7 [10, 20]) = .ok (7, [10, 20]) :=
  ⟨⟨by norm_num, by norm_num, by simp⟩,
    frame_roundtrip 7 (by norm_num) (by norm_num) [10, 20] (by simp)⟩


/-- C1 counterexample: a payload of `2^31 - 4` zero bytes (legal in Go, where
`len` is a 64-bit `int`) makes `int32(4 + len(payload))` wrap to `-2^31`,
so the packed frame does not decode back: `ReadMessage` rejects it with the
`invalid message length` error instead of returning `(m, p)`. -/
theorem frame_roundtrip_overflow_cex :
    ReadMessage (PackMessage 1 (List.replicate 2147483644 0)) =
      .error (.invalidLength (-2147483648)) := by
  generalize hq : List.replicate 2147483644 (0 : Nat) = p
  have hp : p.length = 2147483644 := by
    rw [← hq, List.length_replicate]
  have hlen : (encInt32 1 ++ p).length % 4294967296 = 2147483648 := by
    rw [List.length_append, encInt32_length, hp]
  have hts : toSigned32 (2147483648 % 4294967296) = -2147483648 := by
    norm_num [toSigned32]
  simp only [PackMessage, prefixLength, hlen, ReadMessage, readInt32_natLE4,
    hts, readInt32_encInt32 1 (by norm_num) (by norm_num)]
  norm_num

/-! ## C9 — PackMessage wire layout -/

theorem leFieldValue_natLE4 (k : Nat) :
    leFieldValue (natLE4 k) = k % 4294967296 := by
  simp [leFieldValue, natLE4, natLE4_decode]

theorem packMessage_take4 (m : Int) (p : List Nat) :
    (PackMessage m p).take 4 = natLE4 ((4 + p.length) % 4294967296) := by
  have h4 : (natLE4 ((encInt32 m ++ p).length % 4294967296)).length = 4 := by
    simp [natLE4]
  rw [PackMessage, prefixLength, List.take_left' h4, List.length_append,
    encInt32_length]

/-- C9 (amended): for every message type `m` and every payload `p` with
`4 + len(p) < 2^32`, `PackMessage` returns exactly the 4-byte little-endian
length `4 + len(p)`, then the type as 4-byte little-endian `int32`
(`encInt32 m`), then the payload unmodified; and the numeric value of the
length field is exactly `4 + len(p)`. `PackMessage` is a total function —
no error path for any payload — but for `4 + len(p) ≥ 2^32` the length
field holds `(4 + len(p)) mod 2^32`, not `4 + len(p)` (see the
counterexample), which is the one restriction added to the claim. -/
theorem packMessage_layout (m : Int) (p : List Nat)
    (hp : 4 + p.length < 4294967296) :
    PackMessage m p = natLE4 (4 + p.length) ++ (encInt32 m ++ p) ∧
    leFieldValue ((PackMessage m p).take 4) = 4 + p.length := by
  have hmod : (4 + p.length) % 4294967296 = 4 + p.length := Nat.mod_eq_of_lt hp
  constructor
  · rw [PackMessage, prefixLength, List.length_append, encInt32_length, hmod]
  · rw [packMessage_take4, hmod, leFieldValue_natLE4, hmod]

/-- C9 witness: the layout at the concrete frame `PackMessage 21 [9]`. -/
theorem packMessage_layout_witness :
    (4 + ([9] : List Nat).length < 4294967296) ∧
    (PackMessage 21 [9] = natLE4 (4 + ([9] : List Nat).length) ++ (encInt32 21 ++ [9]) ∧
      leFieldValue ((PackMessage 21 [9]).take 4) = 4 + ([9] : List Nat).length) :=
  ⟨by simp, packMessage_layout 21 [9] (by simp)⟩

/-- C9 counterexample: for a payload of `2^32 - 4` bytes the claimed identity
"length field equals `4 + len(payload)`" fails — Go's `int32(len(data))`
truncates `2^32` to `0`, so the 4-byte field denotes `0`, not `2^32`. -/
theorem packMessage_layout_overflow_cex :
    leFieldValue ((PackMessage 1 (List.replicate 4294967292 0)).take 4) ≠
      4 + (List.replicate 4294967292 (0 : Nat)).length := by
  generalize hq : List.replicate 4294967292 (0 : Nat) = p
  have hp : p.length = 4294967292 := by
    rw [← hq, List.length_replicate]
  rw [packMessage_take4, hp, leFieldValue_natLE4]
  norm_num

/-! ## C2 — string round-trip and encode-time cap -/

/-- C2: for every string `s` (a byte sequence in Go) with
`len(s) ≤ 50,000,000`, `WriteString` succeeds and `ReadString` on the bytes
it wrote returns `s` with no error and nothing left unread beyond them;
for `len(s) > 50,000,000`, `WriteString` fails with the `String too large`
error, having written nothing (the model returns only the error, no bytes). -/
theorem string_roundtrip (s : List Nat) :
    (s.length ≤ 50000000 →
      ∃ bs, WriteString s = .ok bs ∧ ReadString bs = .ok (s, [])) ∧
    (s.length > 50000000 → WriteString s = .error (.stringTooLarge s.length)) := by
  constructor
  · intro h
    refine ⟨natLE4 (s.length % 4294967296) ++ s, ?_, ?_⟩
    · simp only [WriteString, maxStringLen]
      rw [if_neg (by omega)]
    · have := ReadString_enc s (by simp only [maxStringLen]; omega) []
      rwa [List.append_nil] at this
  · intro h
    simp only [WriteString, maxStringLen]
    rw [if_pos (by omega)]

/-- C2 witness: round-trip of the concrete string `[5, 6, 7]` and rejection
of a concrete 50,000,001-byte string. -/
theorem string_roundtrip_witness :
    (([5, 6, 7] : List Nat).length ≤ 50000000 ∧
      ∃ bs, WriteString [5, 6, 7] = .ok bs ∧ ReadString bs = .ok ([5, 6, 7], [])) ∧
    ((List.replicate 50000001 (0 : Nat)).length > 50000000 ∧
      WriteString (List.replicate 50000001 0) =
        .error (.stringTooLarge (List.replicate 50000001 (0 : Nat)).length)) := by
  refine ⟨⟨by simp, (string_roundtrip [5, 6, 7]).1 (by simp)⟩,
    ⟨?_, (string_roundtrip (List.replicate 50000001 0)).2 ?_⟩⟩
  all_goals rw [List.length_replicate]
  all_goals norm_num

/-! ## C6 — ReadString contract -/

/-- C6: for every input stream of bytes, `ReadString` first reads an `int32`
length `L` (failing with `TruncatedRead` when fewer than 4 bytes are
available); it fails with `InvalidLength` when `L < 0` or `L > 50,000,000`;
when `L = 0` it returns the empty string leaving the stream exactly after
the 4 length bytes (no further read); otherwise it reads exactly `L` bytes,
failing with `TruncatedRead` when fewer are available. -/
theorem readString_contract (input : List Nat) (hv : ValidBytes input) :
    (input.length < 4 → ReadString input = .error .truncatedRead) ∧
    (∀ b0 b1 b2 b3 rest L, input = b0 :: b1 :: b2 :: b3 :: rest →
      L = toSigned32 (b0 + 256 * b1 + 65536 * b2 + 16777216 * b3) →
      ((L < 0 ∨ L > 50000000) → ReadString input = .error (.invalidLength L)) ∧
      (L = 0 → ReadString input = .ok ([], rest)) ∧
      (0 < L → L ≤ 50000000 → rest.length < L.toNat →
        ReadString input = .error .truncatedRead) ∧
      (0 < L → L ≤ 50000000 → L.toNat ≤ rest.length →
        ReadString input = .ok (rest.take L.toNat, rest.drop L.toNat))) := by
  constructor
  · intro h
    rcases input with _ | ⟨a, _ | ⟨b, _ | ⟨c, _ | ⟨d, r⟩⟩⟩⟩
    · rfl
    · rfl
    · rfl
    · rfl
    · exfalso
      simp only [List.length_cons] at h
      omega
  · rintro b0 b1 b2 b3 rest L rfl hL
    simp only [ReadString, readInt32, maxStringLen, ← hL]
    refine ⟨?_, ?_, ?_, ?_⟩
    · intro h
      rw [if_pos (by push_cast; omega)]
    · intro h
      rw [if_neg (by omega), if_pos h]
    · intro h1 h2 h3
      rw [if_neg (by push_cast; omega), if_neg (by omega),
        readBytes_short _ _ h3]
    · intro h1 h2 h3
      rw [if_neg (by push_cast; omega), if_neg (by omega)]
      simp only [readBytes, if_pos h3]

/-- C6 witness: the concrete 4-byte stream `FF FF FF FF` declares length
`-1` and is rejected with `InvalidLength`, and the concrete stream
`00 00 00 00 07` declares length `0` and yields the empty string with the
trailing byte unread. -/
theorem readString_contract_witness :
    (ValidBytes [255, 255, 255, 255] ∧
      ReadString [255, 255, 255, 255] = .error (.invalidLength (-1))) ∧
    (ValidBytes [0, 0, 0, 0, 7] ∧
      ReadString [0, 0, 0, 0, 7] = .ok ([], [7])) := by
  refine ⟨⟨by decide, ?_⟩, ⟨by decide, ?_⟩⟩
  · have h := (readString_contract [255, 255, 255, 255] (by decide)).2
      255 255 255 255 [] (-1) rfl (by norm_num [toSigned32])
    exact h.1 (by norm_num)
  · have h := (readString_contract [0, 0, 0, 0, 7] (by decide)).2
      0 0 0 0 [7] 0 rfl (by norm_num [toSigned32])
    exact h.2.1 rfl

/-! ## C4 — ReadMessage error contract -/

/-- C4: for every input stream, `ReadMessage` fails with `TruncatedRead`
when fewer bytes than required are available at any step (fewer than 8
header bytes, or a declared payload longer than what remains), and fails
with `InvalidLength` when the declared length `L` is less than 4 (checked
once both header words are available). Every failure is a bare
`Except.error` — the model returns no message type and no payload alongside
an error, matching Go's `return 0, nil, err`. -/
theorem readMessage_error_contract (input : List Nat) (hv : ValidBytes input) :
    (input.length < 8 → ReadMessage input = .error .truncatedRead) ∧
    (∀ b0 b1 b2 b3 rest L, input = b0 :: b1 :: b2 :: b3 :: rest →
      L = toSigned32 (b0 + 256 * b1 + 65536 * b2 + 16777216 * b3) →
      (L < 4 → 4 ≤ rest.length → ReadMessage input = .error (.invalidLength L)) ∧
      (4 ≤ L → rest.length < L.toNat → ReadMessage input = .error .truncatedRead)) := by
  constructor
  · intro h
    rcases input with _ | ⟨a, _ | ⟨b, _ | ⟨c, _ | ⟨d, _ | ⟨e, _ | ⟨f, _ | ⟨g, _ | ⟨i, r⟩⟩⟩⟩⟩⟩⟩⟩
    · rfl
    · rfl
    · rfl
    · rfl
    · rfl
    · rfl
    · rfl
    · rfl
    · exfalso
      simp only [List.length_cons] at h
      omega
  · rintro b0 b1 b2 b3 rest L rfl hL
    constructor
    · intro h1 h2
      rcases rest with _ | ⟨c0, _ | ⟨c1, _ | ⟨c2, _ | ⟨c3, r2⟩⟩⟩⟩
      · exfalso
        simp at h2
      · exfalso
        simp at h2
      · exfalso
        simp at h2
      · exfalso
        simp at h2
      · simp only [ReadMessage, readInt32, ← hL]
        rw [if_pos (by omega)]
    · intro h1 h2
      rcases rest with _ | ⟨c0, _ | ⟨c1, _ | ⟨c2, _ | ⟨c3, r2⟩⟩⟩⟩
      · rfl
      · rfl
      · rfl
      · rfl
      · have hgt : 4 < L := by
          simp only [List.length_cons] at h2
          omega
        simp only [ReadMessage, readInt32, ← hL]
        rw [if_neg (by omega), if_pos (by omega), readBytes_short _ _ (by
          simp only [List.length_cons] at h2
          omega)]

/-- C4 witness: the spec's 3-byte malformed input `01 00 00` fails with
`TruncatedRead`, and the 8-byte frame declaring length 3 fails with
`InvalidLength 3`. -/
theorem readMessage_error_contract_witness :
    (ValidBytes [1, 0, 0] ∧ ReadMessage [1, 0, 0] = .error .truncatedRead) ∧
    (ValidBytes [3, 0, 0, 0, 1, 0, 0, 0] ∧
      ReadMessage [3, 0, 0, 0, 1, 0, 0, 0] = .error (.invalidLength 3)) := by
  refine ⟨⟨by decide, ?_⟩, ⟨by decide, ?_⟩⟩
  · exact (readMessage_error_contract [1, 0, 0] (by decide)).1 (by decide)
  · exact ((readMessage_error_contract [3, 0, 0, 0, 1, 0, 0, 0] (by decide)).2
      3 0 0 0 [1, 0, 0, 0] 3 rfl (by norm_num [toSigned32])).1
      (by norm_num) (by simp)

/-! ## C5 — ReadMessage success postcondition -/

/-- C5: on success `ReadMessage` returns the numeric type tag — any `int32`
value `m`, whether or not it matches a `MsgType` enum member — and the exact
declared payload; in particular when the declared length `L` is `4` (so
`p = []`) the payload is the empty byte sequence `[]`, a value, not an
error or absent marker. Trailing stream bytes are left unread. -/
theorem readMessage_success_postcondition (m : Int) (h1 : -2147483648 ≤ m)
    (h2 : m < 2147483648) (p rest : List Nat) (hp : 4 + p.length < 2147483648) :
    ReadMessage (natLE4 (4 + p.length) ++ (encInt32 m ++ (p ++ rest))) =
      .ok (m, p) := by
  have hmod : (4 + p.length) % 4294967296 = 4 + p.length :=
    Nat.mod_eq_of_lt (by omega)
  simp only [ReadMessage, readInt32_natLE4, hmod, toSigned32_small _ hp,
    readInt32_encInt32 m h1 h2]
  have hrem : ((4 + p.length : Nat) : Int) - 4 = (p.length : Int) := by
    push_cast
    ring
  by_cases hp0 : p.length = 0
  · have hnil : p = [] := List.eq_nil_of_length_eq_zero hp0
    subst hnil
    norm_num
  · rw [hrem, if_neg (by omega), if_pos (by omega), Int.toNat_natCast,
      readBytes_exact]

/-- C5 witness: the tag `12345` matches no `MsgType` constant, yet the
4-byte frame `natLE4 4 ++ encInt32 12345` decodes to `(12345, [])`. -/
theorem readMessage_success_postcondition_witness :
    (-2147483648 ≤ (12345 : Int) ∧ (12345 : Int) < 2147483648 ∧
      4 + ([] : List Nat).length < 2147483648) ∧
    ReadMessage (natLE4 (4 + ([] : List Nat).length) ++
      (encInt32 12345 ++ ([] ++ []))) = .ok (12345, []) :=
  ⟨⟨by norm_num, by norm_num, by simp⟩,
    readMessage_success_postcondition 12345 (by norm_num) (by norm_num) [] []
      (by simp)⟩

/-! ## C7 — per-type encode/decode fidelity -/

theorem writeStrTo_append (buf s : List Nat) :
    writeStrTo buf s = buf ++ writeStrTo [] s := by
  unfold writeStrTo
  cases hW : WriteString s
  · simp
  · simp

theorem ReadString_writeStr (s : List Nat) (h : s.length ≤ maxStringLen)
    (rest : List Nat) : ReadString (writeStrTo [] s ++ rest) = .ok (s, rest) := by
  rw [writeStrTo_ok [] s h, List.nil_append, List.append_assoc]
  exact ReadString_enc s h rest

theorem readInt64_encInt64_nil (v : Int) (h1 : -9223372036854775808 ≤ v)
    (h2 : v < 9223372036854775808) : readInt64 (encInt64 v) = .ok (v, []) := by
  have := readInt64_encInt64 v h1 h2 []
  rwa [List.append_nil] at this

/-- C7: each typed decoder, applied to the payload (frame minus the 8 header
bytes) of the corresponding encoder, recovers the original field values:
Hello's username, FileAdvert's (fileID, name, size), GetFile's
(transferID, fileID, offset), FileChunk's (transferID, offset, chunk) —
for all in-range field values (strings within the 50,000,000 cap, `int64`
fields in range, chunks within the 100 MiB cap). -/
theorem per_type_fidelity :
    (∀ u : List Nat, u.length ≤ 50000000 →
      DecodeHello ((EncodeHello u).drop 8) = .ok u) ∧
    (∀ (fileID name : List Nat) (size : Int), fileID.length ≤ 50000000 →
      name.length ≤ 50000000 → -9223372036854775808 ≤ size →
      size < 9223372036854775808 →
      DecodeFileAdvert ((EncodeFileAdvert fileID name size).drop 8) =
        .ok (fileID, name, size)) ∧
    (∀ (transferID fileID : List Nat) (offset : Int),
      transferID.length ≤ 50000000 → fileID.length ≤ 50000000 →
      -9223372036854775808 ≤ offset → offset < 9223372036854775808 →
      DecodeGetFile ((EncodeGetFile transferID fileID offset).drop 8) =
        .ok (transferID, fileID, offset)) ∧
    (∀ (transferID : List Nat) (offset : Int) (chunk : List Nat),
      transferID.length ≤ 50000000 → -9223372036854775808 ≤ offset →
      offset < 9223372036854775808 → chunk.length ≤ 104857600 →
      DecodeFileChunk ((EncodeFileChunk transferID offset chunk).drop 8) =
        .ok (transferID, offset, chunk)) := by
  refine ⟨?_, ?_, ?_, ?_⟩
  · intro u hu
    have e1 := ReadString_writeStr u hu []
    rw [List.append_nil] at e1
    simp only [EncodeHello, pack_drop8, DecodeHello, e1]
  · intro fid name size h1 h2 h3 h4
    have e1 := ReadString_writeStr fid h1 (writeStrTo [] name ++ encInt64 size)
    have e2 := ReadString_writeStr name h2 (encInt64 size)
    have e3 := readInt64_encInt64_nil size h3 h4
    simp only [EncodeFileAdvert, pack_drop8, DecodeFileAdvert,
      writeStrTo_append (writeStrTo [] fid) name, List.append_assoc, e1, e2, e3]
  · intro tid fid off h1 h2 h3 h4
    have e1 := ReadString_writeStr tid h1 (writeStrTo [] fid ++ encInt64 off)
    have e2 := ReadString_writeStr fid h2 (encInt64 off)
    have e3 := readInt64_encInt64_nil off h3 h4
    simp only [EncodeGetFile, pack_drop8, DecodeGetFile,
      writeStrTo_append (writeStrTo [] tid) fid, List.append_assoc, e1, e2, e3]
  · intro tid off chunk h1 h2 h3 h4
    have hlen : chunk.length % 4294967296 = chunk.length :=
      Nat.mod_eq_of_lt (by omega)
    have hts : toSigned32 chunk.length = chunk.length :=
      toSigned32_small _ (by omega)
    have e1 := ReadString_writeStr tid h1
      (encInt64 off ++ (natLE4 chunk.length ++ chunk))
    have e2 := readInt64_encInt64 off h2 h3 (natLE4 chunk.length ++ chunk)
    have e3 := readInt32_natLE4 chunk.length chunk
    rw [hlen, hts] at e3
    simp only [EncodeFileChunk, pack_drop8, DecodeFileChunk,
      List.append_assoc, hlen, e1, e2, e3]
    rw [if_neg (by omega)]
    by_cases hc : chunk.length = 0
    · have hnil : chunk = [] := List.eq_nil_of_length_eq_zero hc
      subst hnil
      norm_num
    · rw [if_neg (by omega), Int.toNat_natCast]
      have e4 := readBytes_exact chunk []
      rw [List.append_nil] at e4
      rw [e4]

/-- C7 witness: the spec's listed example inputs — `"alice"`,
`("id1", "a.txt", 42)`, `("tx", "f", 99)`, `("tx", 7, [1,2,3])` — as byte
sequences, with all hypotheses discharged. -/
theorem per_type_fidelity_witness :
    DecodeHello ((EncodeHello [97, 108, 105, 99, 101]).drop 8) =
      .ok [97, 108, 105, 99, 101] ∧
    DecodeFileAdvert ((EncodeFileAdvert [105, 100, 49] [97, 46, 116, 120, 116]
      42).drop 8) = .ok ([105, 100, 49], [97, 46, 116, 120, 116], 42) ∧
    DecodeGetFile ((EncodeGetFile [116, 120] [102] 99).drop 8) =
      .ok ([116, 120], [102], 99) ∧
    DecodeFileChunk ((EncodeFileChunk [116, 120] 7 [1, 2, 3]).drop 8) =
      .ok ([116, 120], 7, [1, 2, 3]) :=
  ⟨per_type_fidelity.1 [97, 108, 105, 99, 101] (by simp),
    per_type_fidelity.2.1 [105, 100, 49] [97, 46, 116, 120, 116] 42 (by simp)
      (by simp) (by norm_num) (by norm_num),
    per_type_fidelity.2.2.1 [116, 120] [102] 99 (by simp) (by simp)
      (by norm_num) (by norm_num),
    per_type_fidelity.2.2.2 [116, 120] 7 [1, 2, 3] (by simp) (by norm_num)
      (by norm_num) (by simp)⟩

/-! ## C8 — zero-length chunk is not an error -/

/-- C8: for every FileChunk payload consisting of a well-formed transferID
string, an in-range `int64` offset, a declared chunk length of `0`, and any
trailing bytes (none of which are read), `DecodeFileChunk` succeeds,
returning the transferID, the offset, and the empty chunk `[]` — an `ok`
value, distinguishable from every error (Go returns `nil` here; `[]` is the
model's empty byte sequence). -/
theorem zero_length_chunk (tid : List Nat) (htid : tid.length ≤ 50000000)
    (off : Int) (h1 : -9223372036854775808 ≤ off)
    (h2 : off < 9223372036854775808) (rest : List Nat) :
    DecodeFileChunk (writeStrTo [] tid ++ (encInt64 off ++ (natLE4 0 ++ rest))) =
      .ok (tid, off, []) := by
  have e1 := ReadString_writeStr tid htid (encInt64 off ++ (natLE4 0 ++ rest))
  have e2 := readInt64_encInt64 off h1 h2 (natLE4 0 ++ rest)
  have e3 := readInt32_natLE4 0 rest
  have t0 : toSigned32 (0 % 4294967296) = 0 := rfl
  rw [t0] at e3
  simp only [DecodeFileChunk, e1, e2, e3]
  norm_num

/-- C8 witness: transferID `[116]`, offset `7`, declared chunk length `0`,
with two trailing bytes that are left unread. -/
theorem zero_length_chunk_witness :
    (([116] : List Nat).length ≤ 50000000 ∧
      -9223372036854775808 ≤ (7 : Int) ∧ (7 : Int) < 9223372036854775808) ∧
    DecodeFileChunk (writeStrTo [] [116] ++ (encInt64 7 ++ (natLE4 0 ++ [9, 9]))) =
      .ok ([116], 7, []) :=
  ⟨⟨by simp, by norm_num, by norm_num⟩,
    zero_length_chunk [116] (by simp) 7 (by norm_num) (by norm_num) [9, 9]⟩

/-! ## C3 — chunk length cap on decode -/

/-- C3: for every FileChunk payload whose well-formed prefix (transferID
string, `int64` offset) is followed by a declared `int32` chunk length `L`
that is negative or exceeds `104857600 = 100*1024*1024`, `DecodeFileChunk`
fails with `InvalidLength L` — for any trailing bytes `rest`, in particular
ones far shorter than `L`, showing no attempt to allocate or read the
declared length (the offset value is unconstrained: the check happens
before any use of it). -/
theorem chunk_length_cap (tid : List Nat) (htid : tid.length ≤ 50000000)
    (off : Int) (L : Int) (hL1 : -2147483648 ≤ L) (hL2 : L < 2147483648)
    (hbad : L < 0 ∨ L > 104857600) (rest : List Nat) :
    DecodeFileChunk (writeStrTo [] tid ++ (encInt64 off ++ (encInt32 L ++ rest))) =
      .error (.invalidLength L) := by
  have e1 := ReadString_writeStr tid htid (encInt64 off ++ (encInt32 L ++ rest))
  obtain ⟨v, e2⟩ : ∃ v, readInt64 (encInt64 off ++ (encInt32 L ++ rest)) =
      .ok (v, encInt32 L ++ rest) := by
    rw [encInt64]
    exact ⟨_, readInt64_natLE8 _ _⟩
  have e3 := readInt32_encInt32 L hL1 hL2 rest
  simp only [DecodeFileChunk, e1, e2, e3]
  rw [if_pos hbad]

/-- C3 witness: declared chunk length `104857601` (one over the cap) with an
empty tail — nothing after the length field, yet the failure is
`InvalidLength`, not a read error. -/
theorem chunk_length_cap_witness :
    (([] : List Nat).length ≤ 50000000 ∧ -2147483648 ≤ (104857601 : Int) ∧
      (104857601 : Int) < 2147483648 ∧
      ((104857601 : Int) < 0 ∨ (104857601 : Int) > 104857600)) ∧
    DecodeFileChunk (writeStrTo [] [] ++ (encInt64 0 ++ (encInt32 104857601 ++ []))) =
      .error (.invalidLength 104857601) :=
  ⟨⟨by simp, by norm_num, by norm_num, Or.inr (by norm_num)⟩,
    chunk_length_cap [] (by simp) 0 104857601 (by norm_num) (by norm_num)
      (Or.inr (by norm_num)) []⟩

/-! ## C10 — encode/decode asymmetry for oversized chunks -/

/-- C10 (amended): `EncodeFileChunk` performs no size check — it is a total
function, returning a complete frame for any chunk — so for every chunk with
`104857600 < len(chunk) < 2^32`, the frame is produced without error, yet
`DecodeFileChunk` on that frame's own payload fails with `InvalidLength`
(carrying the wrapped `int32` reading of the length field). The original
claim's unbounded quantification fails at `len(chunk) = 2^32`, where the
`int32` chunk-length field wraps to `0` and decoding even succeeds — with an
empty chunk instead of the encoded one (see the counterexample). -/
theorem oversized_chunk_asymmetry (tid : List Nat) (htid : tid.length ≤ 50000000)
    (off : Int) (chunk : List Nat) (hc1 : 104857600 < chunk.length)
    (hc2 : chunk.length < 4294967296) :
    DecodeFileChunk ((EncodeFileChunk tid off chunk).drop 8) =
      .error (.invalidLength (toSigned32 chunk.length)) := by
  have hlen : chunk.length % 4294967296 = chunk.length := Nat.mod_eq_of_lt hc2
  have e1 := ReadString_writeStr tid htid
    (encInt64 off ++ (natLE4 chunk.length ++ chunk))
  obtain ⟨v, e2⟩ : ∃ v, readInt64 (encInt64 off ++ (natLE4 chunk.length ++ chunk)) =
      .ok (v, natLE4 chunk.length ++ chunk) := by
    rw [encInt64]
    exact ⟨_, readInt64_natLE8 _ _⟩
  have e3 := readInt32_natLE4 chunk.length chunk
  rw [hlen] at e3
  have hbad : toSigned32 chunk.length < 0 ∨ toSigned32 chunk.length > 104857600 := by
    unfold toSigned32
    split
    · exact Or.inr (by omega)
    · exact Or.inl (by omega)
  simp only [EncodeFileChunk, pack_drop8, List.append_assoc, hlen,
    DecodeFileChunk, e1, e2, e3]
  rw [if_pos hbad]

/-- C10 witness: a chunk of `104857601` zero bytes encodes without error and
its payload is rejected by the decoder with `InvalidLength 104857601`. -/
theorem oversized_chunk_asymmetry_witness :
    (([] : List Nat).length ≤ 50000000 ∧
      104857600 < (List.replicate 104857601 (0 : Nat)).length ∧
      (List.replicate 104857601 (0 : Nat)).length < 4294967296) ∧
    DecodeFileChunk ((EncodeFileChunk [] 0 (List.replicate 104857601 0)).drop 8) =
      .error (.invalidLength (toSigned32 (List.replicate 104857601 (0 : Nat)).length)) := by
  refine ⟨⟨by simp, ?_, ?_⟩,
    oversized_chunk_asymmetry [] (by simp) 0 (List.replicate 104857601 0) ?_ ?_⟩
  all_goals rw [List.length_replicate]
  all_goals norm_num

/-- C10 counterexample: at `len(chunk) = 2^32` the `int32(len(chunk))` field
wraps to `0`, and `DecodeFileChunk` on the frame's own payload SUCCEEDS,
returning an empty chunk — it does not fail with `InvalidLength` as the
claim asserts for every chunk longer than the cap. -/
theorem oversized_chunk_asymmetry_wrap_cex :
    DecodeFileChunk ((EncodeFileChunk [] 0 (List.replicate 4294967296 0)).drop 8) =
      .ok ([], 0, []) := by
  generalize hq : List.replicate 4294967296 (0 : Nat) = c
  have hc : c.length = 4294967296 := by
    rw [← hq, List.length_replicate]
  have hlen : c.length % 4294967296 = 0 := by
    rw [hc]
  have e1 := ReadString_writeStr [] (by simp) (encInt64 0 ++ (natLE4 0 ++ c))
  have e2 := readInt64_encInt64 0 (by norm_num) (by norm_num) (natLE4 0 ++ c)
  have e3 := readInt32_natLE4 0 c
  have t0 : toSigned32 (0 % 4294967296) = 0 := rfl
  rw [t0] at e3
  simp only [EncodeFileChunk, pack_drop8, List.append_assoc, hlen,
    DecodeFileChunk, e1, e2, e3]
  rw [if_neg (by norm_num), if_pos trivial]
